import Mathlib

/-!
Shallow embedding of the kspacker asset-resolution and content-addressed
packaging engine (src/src/pack/{helpers,packer,unpacker,mod}.rs).

Modelling conventions:
* A filesystem path is the list of its components (a `PathBuf` built by
  successive `join`s); the filesystem is an association list from paths to
  file contents, where a later `write` shadows earlier entries.
* File contents are an inductive `Data`: raw bytes for assets, a parsed
  preset document for preset JSON files, and a zip archive as a list of
  named entries (as written by the `zip` crate).  A partially written
  archive left behind by an aborted pack is `Data.truncatedArchive`.
* The blake3 digest is idealized as a collision-free content key: the
  digest of a byte string is the byte string itself, and the injective hex
  rendering used for zip entry names is kept as the raw digest in
  `EntryName.asset` / `MetaEntry.hash` (it is materialised as a string by
  `bytesToHex` only where the code builds an output file name from it).
* Machine integers (`u32` versions, byte values) are `Nat`; the code only
  ever compares them for equality.
-/

namespace Kspacker

abbrev Path := List String

abbrev Bytes := List Nat

abbrev Version := Nat

/-- Idealized collision-free blake3 digest: the content itself is its key. -/
def blake3_hash (b : Bytes) : Bytes := b

def hexDigitChar (n : Nat) : Char :=
  if n < 10 then Char.ofNat (48 + n) else Char.ofNat (87 + n)

def byteToHex (b : Nat) : String :=
  String.mk [hexDigitChar (b / 16 % 16), hexDigitChar (b % 16)]

/-- Lowercase hex rendering of a digest (`blake3::Hash::to_hex`). -/
def bytesToHex (h : Bytes) : String := String.join (h.map byteToHex)

/-- `TextureType` from src/src/pack/mod.rs. -/
inductive TextureType where
  | Diffuse
  | Emissive
  | WorldStencil
  | Mask
  | Metalness
  | Normal
  | Roughness
  | Shape
  | Specular
  | Stencil
deriving DecidableEq, Repr

/-- `TextureType::path_name` from src/src/pack/mod.rs. -/
def TextureType.path_name : TextureType → String
  | .Diffuse | .Emissive => "Colour"
  | .WorldStencil | .Mask => "Mask"
  | .Metalness => "Metal"
  | .Normal => "Normal"
  | .Roughness => "Roughness"
  | .Shape => "Particle stencil"
  | .Specular => "Specular"
  | .Stencil => "Pulse stencil"

/-- Modelled from the spec: the preset document schema module
(`ks_preset.rs`, `Texturable`) is not present under src/.  A material
exposes up to 7 optional texture slots (§4.3, §9 of the spec); the slot and
field names are exactly those read by `Packer::collect` and
`Packer::get_textures`. -/
structure Material where
  diffuse : Option String
  emissive : Option String
  mask : Option String
  metalness : Option String
  normal : Option String
  roughness : Option String
  specular : Option String

/-- Modelled from the spec: one particle effect element (enabled flag plus
its shape texture reference), as read by `Packer::collect`. -/
structure Particle where
  enabled : Bool
  shape : String

/-- Modelled from the spec: one pulse effect element, as read by
`Packer::collect`. -/
structure Pulse where
  enabled : Bool
  stencil : String
  world_stencil : String

/-- Modelled from the spec: the keypress effects sub-object. -/
structure KeypressesEffects where
  keypress_material : Material

/-- Modelled from the spec: the note-objects effects sub-object. -/
structure NoteObjectsEffects where
  note_border_material : Material
  note_object_material : Material

/-- Modelled from the spec: the particles collection with its enabled
toggle. -/
structure ParticlesEffects where
  particles_enabled : Bool
  particle_v2_array : List Particle

/-- Modelled from the spec: the pulses collection with its enabled
toggle. -/
structure PulsesEffects where
  pulses_enabled : Bool
  pulse_array_v2 : List Pulse

/-- Modelled from the spec: the effects section of the preset document. -/
structure EffectsDoc where
  keypresses : KeypressesEffects
  note_objects : NoteObjectsEffects
  particles : ParticlesEffects
  pulses : PulsesEffects

/-- Modelled from the spec: the scene section of the preset document. -/
structure SceneDoc where
  backdrop_material : Material
  damper_material : Material
  octave_material : Material
  overlay_material : Material
  piano_black_key_material : Material
  piano_white_key_material : Material

/-- Modelled from the spec: the preset document
(`KeysightPresetElement`), restricted to the fields `Packer::collect`
reads, plus its embedded `versionForUpdatePurposes` field which is carried
separately in `Data.presetDoc`. -/
structure KeysightPresetElement where
  effects : EffectsDoc
  scene : SceneDoc

/-- `MetaEntry` from src/src/pack/mod.rs (the `hash` hex string is kept as
the raw digest, see module comment). -/
structure MetaEntry where
  hash : Bytes
  name : String
  extension : String
  texture_type : TextureType
  source_was_random : Bool

/-- `PackMetaData` from src/src/pack/mod.rs (`packed` timestamp is an
opaque Nat). -/
structure PackMetaData where
  name : String
  author : String
  description : String
  packed : Nat
  preset_version : Version
  target_version : Version
  assets : List MetaEntry

/-- Names of entries inside the produced zip archive.  The real names are
strings: "assets" (directory), "assets/<hex digest>", "preset.json",
"metadata.json"; hex rendering is injective so the digest is kept raw. -/
inductive EntryName where
  | assetsDir
  | asset (hash : Bytes)
  | presetJson
  | metadataJson
deriving DecidableEq

/-- Contents of a file on disk or of a zip entry. -/
inductive Data where
  | bytes (b : Bytes)
  | presetDoc (version : Version) (doc : KeysightPresetElement)
  | dir
  | metaJson (m : PackMetaData)
  | presetCopy (d : Data)
  | archive (entries : List (EntryName × Data))
  | truncatedArchive (entries : List (EntryName × Data))

/-- The filesystem: newest writes first, lookup takes the first match. -/
structure FS where
  files : List (Path × Data)

def lookupPath : List (Path × Data) → Path → Option Data
  | [], _ => none
  | e :: rest, p => if e.1 = p then some e.2 else lookupPath rest p

def lookupEntry : List (EntryName × Data) → EntryName → Option Data
  | [], _ => none
  | e :: rest, n => if e.1 = n then some e.2 else lookupEntry rest n

def FS.read? (fs : FS) (p : Path) : Option Data := lookupPath fs.files p

def FS.existsFile (fs : FS) (p : Path) : Bool := (fs.read? p).isSome

def FS.write (fs : FS) (p : Path) (d : Data) : FS := ⟨(p, d) :: fs.files⟩

/-! Directory helpers, from src/src/pack/helpers.rs.  The installation
root and the per-user local data directory are opaque paths threaded in
explicitly. -/

def root_preset_dir (install : Path) : Path :=
  install ++ ["Keysight", "Default presets", "Standard"]

def root_asset_dir (install : Path) : Path :=
  install ++ ["Keysight", "Default textures"]

def custom_preset_dir (dl : Path) : Path :=
  dl ++ ["Keysight", "Saved", "Presets"]

def custom_asset_dir (dl : Path) (random : Bool) : Path :=
  dl ++ ["Keysight", "Saved",
    if random then "Textures (randomizer enabled)" else "Textures"]

/-! The packer, from src/src/pack/packer.rs. -/

inductive AssetAction where
  | NotFound
  | Ignore
  | Pack
deriving DecidableEq, Repr

def AssetAction.isPack : AssetAction → Bool
  | .Pack => true
  | _ => false

structure FoundAsset where
  name : String
  ext : String
  texture_type : TextureType
  random : Bool
  path : Path
  action : AssetAction

inductive PackError where
  | NotFound (name : String)
  | Unreadable
  | MalformedPreset
  | IsBuiltin
  | PackIoError
  | ZipError
  | MalformedMeta
  | WrongVersion (wanted : Version) (got : Version)
deriving DecidableEq

structure Packer where
  root : Path
  preset : String
  ksv : Version

/-- The `test_exts` closure inside `Packer::make_found_file`: try the fixed
extension list in order, first existing candidate wins. -/
def test_exts_list (fs : FS) (p : Path) (n : String) : List String → Option (Path × String)
  | [] => none
  | ext :: rest =>
    let current := p ++ [n ++ "." ++ ext]
    if fs.existsFile current then some (current, ext) else test_exts_list fs p n rest

def test_exts (fs : FS) (p : Path) (n : String) : Option (Path × String) :=
  test_exts_list fs p n ["png", "jpg", "jpeg"]

/-- `Packer::make_found_file`: three roots in priority order.  Note the
source sets `random: false` in all branches, including the randomizer-
directory one. -/
def make_found_file (fs : FS) (install dl : Path) (typ : TextureType) (file : String) : FoundAsset :=
  match test_exts fs (root_asset_dir install ++ [typ.path_name]) file with
  | some (path, ext) =>
    { name := file, ext := ext, texture_type := typ, random := false,
      path := path, action := .Ignore }
  | none =>
    match test_exts fs (custom_asset_dir dl false ++ [typ.path_name]) file with
    | some (path, ext) =>
      { name := file, ext := ext, texture_type := typ, random := false,
        path := path, action := .Pack }
    | none =>
      match test_exts fs (custom_asset_dir dl true ++ [typ.path_name]) file with
      | some (path, ext) =>
        { name := file, ext := ext, texture_type := typ, random := false,
          path := path, action := .Pack }
      | none =>
        { name := file, ext := "", texture_type := typ, random := false,
          path := [], action := .NotFound }

def opt_texture (fs : FS) (install dl : Path) (typ : TextureType) : Option String → List FoundAsset
  | some tex => [make_found_file fs install dl typ tex]
  | none => []

/-- `Packer::get_textures`: one push per present texture slot, in the fixed
slot order of the source. -/
def get_textures (fs : FS) (install dl : Path) (t : Material) : List FoundAsset :=
  opt_texture fs install dl .Diffuse t.diffuse ++
  opt_texture fs install dl .Emissive t.emissive ++
  opt_texture fs install dl .Mask t.mask ++
  opt_texture fs install dl .Metalness t.metalness ++
  opt_texture fs install dl .Normal t.normal ++
  opt_texture fs install dl .Roughness t.roughness ++
  opt_texture fs install dl .Specular t.specular

/-- The file-discovery portion of `Packer::collect` (the straight-line
sequence of `get_textures` calls plus the particle and pulse loops, in
source order). -/
def collect_files (fs : FS) (install dl : Path) (doc : KeysightPresetElement) : List FoundAsset :=
  get_textures fs install dl doc.effects.keypresses.keypress_material ++
  get_textures fs install dl doc.effects.note_objects.note_border_material ++
  get_textures fs install dl doc.effects.note_objects.note_object_material ++
  get_textures fs install dl doc.scene.backdrop_material ++
  get_textures fs install dl doc.scene.damper_material ++
  get_textures fs install dl doc.scene.octave_material ++
  get_textures fs install dl doc.scene.overlay_material ++
  get_textures fs install dl doc.scene.piano_black_key_material ++
  get_textures fs install dl doc.scene.piano_white_key_material ++
  (if doc.effects.particles.particles_enabled then
    (doc.effects.particles.particle_v2_array.filter (fun part => part.enabled)).map
      (fun part => make_found_file fs install dl .Shape part.shape)
  else []) ++
  (if doc.effects.pulses.pulses_enabled then
    (doc.effects.pulses.pulse_array_v2.filter (fun pu => pu.enabled)).flatMap
      (fun pu => [make_found_file fs install dl .Stencil pu.stencil,
                  make_found_file fs install dl .WorldStencil pu.world_stencil])
  else [])

structure PackablePreset where
  name : String
  path : Path
  assets : List FoundAsset

/-- `Packer::check_builtin_preset`. -/
def Packer.check_builtin_preset (fs : FS) (p : Packer) : Bool :=
  fs.existsFile (root_preset_dir p.root ++ [p.preset ++ ".json"])

/-- `Packer::collect`: builtin guard, preset existence, embedded version
gate, file discovery, then retain only `Pack`-resolved assets. -/
def Packer.collect (fs : FS) (dl : Path) (p : Packer) (allow_builtin : Bool) :
    Except PackError PackablePreset :=
  if !allow_builtin && Packer.check_builtin_preset fs p then
    .error .IsBuiltin
  else
    let preset_path := custom_preset_dir dl ++ [p.preset ++ ".json"]
    match fs.read? preset_path with
    | none => .error (.NotFound p.preset)
    | some (.presetDoc ver doc) =>
      if ver ≠ p.ksv then
        .error (.WrongVersion p.ksv ver)
      else
        let files := collect_files fs p.root dl doc
        .ok { name := p.preset, path := preset_path,
              assets := files.filter (fun a => a.action.isPack) }
    | some _ => .error .MalformedPreset

structure ExtraMeta where
  rename : Option String
  author : String
  description : String
  version : Version
  current_ks_version : Version

/-- The per-asset loop of `PackablePreset::pack`: hash each asset's bytes;
if the digest was already written, `continue` (which skips both the blob
and the metadata entry); otherwise store the blob under its digest and
record a `MetaEntry`.  Returns the error (if any) together with the zip
entries and metadata entries accumulated so far. -/
def packLoop (fs : FS) : List FoundAsset → List Bytes → List (EntryName × Data) →
    List MetaEntry → Option PackError × List (EntryName × Data) × List MetaEntry
  | [], _, entries, metas => (none, entries, metas)
  | a :: rest, hashes, entries, metas =>
    match fs.read? a.path with
    | some (.bytes b) =>
      let h := blake3_hash b
      if h ∈ hashes then
        packLoop fs rest hashes entries metas
      else
        packLoop fs rest (h :: hashes)
          (entries ++ [(.asset h, .bytes b)])
          (metas ++ [{ hash := h, name := a.name, extension := a.ext,
                       texture_type := a.texture_type,
                       source_was_random := a.random }])
    | _ => (some .PackIoError, entries, metas)

/-- `PackablePreset::pack`: the output file is created at the destination
immediately; the assets directory entry, the blobs, the verbatim preset
copy and the metadata are written in one pass.  On any error the operation
aborts, leaving the partially written archive at the destination. -/
def PackablePreset.pack (fs : FS) (pp : PackablePreset) (dest : Path) (em : ExtraMeta)
    (now : Nat) : Except PackError Unit × FS :=
  match packLoop fs pp.assets [] [(.assetsDir, .dir)] [] with
  | (some e, entries, _) => (.error e, fs.write dest (.truncatedArchive entries))
  | (none, entries, metas) =>
    match fs.read? pp.path with
    | none => (.error .PackIoError, fs.write dest (.truncatedArchive entries))
    | some d =>
      let meta : PackMetaData :=
        { name := em.rename.getD pp.name, author := em.author,
          description := em.description, packed := now,
          preset_version := em.version,
          target_version := em.current_ks_version, assets := metas }
      (.ok (), fs.write dest (.archive (entries ++
        [(.presetJson, .presetCopy d), (.metadataJson, .metaJson meta)])))

/-- The export pipeline as driven by the UI (src/src/main.rs): `collect`
first; `pack` only runs on a successfully collected preset, so a collect
error leaves the filesystem untouched. -/
def collect_and_pack (fs : FS) (dl : Path) (p : Packer) (allow_builtin : Bool)
    (dest : Path) (em : ExtraMeta) (now : Nat) : Except PackError Unit × FS :=
  match Packer.collect fs dl p allow_builtin with
  | .error e => (.error e, fs)
  | .ok pp => PackablePreset.pack fs pp dest em now

/-! The unpacker, from src/src/pack/unpacker.rs. -/

inductive UnpackError where
  | AssetNotFound (name : String)
  | PackIOError
  | ZipIOError
  | JsonError
deriving DecidableEq

/-- `Unpacker::test_file`: the local-existence test for conflict detection.
The source checks a single candidate path: the non-randomizer custom asset
directory, joined with the category stem and "{name}.{extension}". -/
def Unpacker.test_file (fs : FS) (dl : Path) (e : MetaEntry) : Bool :=
  fs.existsFile (custom_asset_dir dl false ++
    [e.texture_type.path_name, e.name ++ "." ++ e.extension])

structure PackedFile where
  path : Path
  metadata : PackMetaData
  conflicts : List MetaEntry

/-- `Unpacker::load`: open the archive, parse `metadata.json`, and collect
the conflict list via `test_file`. -/
def Unpacker.load (fs : FS) (dl : Path) (src : Path) : Except UnpackError PackedFile :=
  match fs.read? src with
  | none => .error .PackIOError
  | some (.archive entries) =>
    match lookupEntry entries .metadataJson with
    | some (.metaJson m) =>
      .ok { path := src, metadata := m,
            conflicts := m.assets.filter (fun a => Unpacker.test_file fs dl a) }
    | some _ => .error .JsonError
    | none => .error .ZipIOError
  | some _ => .error .ZipIOError

/-- `PackedFile::exists`: the preset-name conflict test checks for
"{metadata.name}.json" in the local preset directory. -/
def PackedFile.presetExists (fs : FS) (dl : Path) (pf : PackedFile) : Bool :=
  fs.existsFile (custom_preset_dir dl ++ [pf.metadata.name ++ ".json"])

/-- The per-entry extraction loop of `PackedFile::unpack`: each entry's
blob is copied verbatim from the archive to the non-randomizer custom
asset directory under "{name}.{hash}" (note: the source formats the hex
hash, not the recorded extension, into the file name).  A missing blob is
fatal for the whole unpack. -/
def unpackAssets (dl : Path) (entries : List (EntryName × Data)) :
    FS → List MetaEntry → Except UnpackError Unit × FS
  | fs, [] => (.ok (), fs)
  | fs, a :: rest =>
    match lookupEntry entries (.asset a.hash) with
    | none => (.error (.AssetNotFound (bytesToHex a.hash)), fs)
    | some d =>
      unpackAssets dl entries
        (fs.write (custom_asset_dir dl false ++
          [a.texture_type.path_name, a.name ++ "." ++ bytesToHex a.hash]) d)
        rest

/-- `PackedFile::unpack`: re-open the archive, write the verbatim preset
document to the local preset directory under the metadata's name (with no
".json" suffix appended), then extract every asset entry. -/
def PackedFile.unpack (fs : FS) (dl : Path) (pf : PackedFile) : Except UnpackError Unit × FS :=
  match fs.read? pf.path with
  | none => (.error .PackIOError, fs)
  | some (.archive entries) =>
    match lookupEntry entries .presetJson with
    | none => (.error (.AssetNotFound "preset.json"), fs)
    | some d =>
      let fs1 := fs.write (custom_preset_dir dl ++ [pf.metadata.name]) d
      unpackAssets dl entries fs1 pf.metadata.assets
  | some _ => (.error .ZipIOError, fs)

/-! Reference-extraction view of `Packer::collect`, used to state that the
collected asset list is exactly the document's reference sequence resolved
and filtered, with no de-duplication. -/

def opt_ref (typ : TextureType) : Option String → List (TextureType × String)
  | some tex => [(typ, tex)]
  | none => []

def material_refs (t : Material) : List (TextureType × String) :=
  opt_ref .Diffuse t.diffuse ++
  opt_ref .Emissive t.emissive ++
  opt_ref .Mask t.mask ++
  opt_ref .Metalness t.metalness ++
  opt_ref .Normal t.normal ++
  opt_ref .Roughness t.roughness ++
  opt_ref .Specular t.specular

/-- The sequence of (category, logical name) references walked by
`Packer::collect`, in source order, duplicates included. -/
def extract_refs (doc : KeysightPresetElement) : List (TextureType × String) :=
  material_refs doc.effects.keypresses.keypress_material ++
  material_refs doc.effects.note_objects.note_border_material ++
  material_refs doc.effects.note_objects.note_object_material ++
  material_refs doc.scene.backdrop_material ++
  material_refs doc.scene.damper_material ++
  material_refs doc.scene.octave_material ++
  material_refs doc.scene.overlay_material ++
  material_refs doc.scene.piano_black_key_material ++
  material_refs doc.scene.piano_white_key_material ++
  (if doc.effects.particles.particles_enabled then
    (doc.effects.particles.particle_v2_array.filter (fun part => part.enabled)).map
      (fun part => (.Shape, part.shape))
  else []) ++
  (if doc.effects.pulses.pulses_enabled then
    (doc.effects.pulses.pulse_array_v2.filter (fun pu => pu.enabled)).flatMap
      (fun pu => [(.Stencil, pu.stencil), (.WorldStencil, pu.world_stencil)])
  else [])

/-! Observation helpers on produced archives. -/

/-- The entry list of the archive stored at a path (empty if none). -/
def archiveEntries (fs : FS) (p : Path) : List (EntryName × Data) :=
  match fs.read? p with
  | some (.archive es) => es
  | _ => []

/-- Number of stored blobs (entries under assets/) in an archive. -/
def blobCount (es : List (EntryName × Data)) : Nat :=
  (es.filter (fun e => match e.1 with | .asset _ => true | _ => false)).length

/-- The parsed `metadata.json` of an archive, when present. -/
def metaOf (es : List (EntryName × Data)) : Option PackMetaData :=
  match lookupEntry es .metadataJson with
  | some (.metaJson m) => some m
  | _ => none

/-! Concrete scenarios used to evaluate the code at specific inputs. -/

def sampleEM : ExtraMeta :=
  { rename := none, author := "au", description := "de", version := 3,
    current_ks_version := 4 }

def mkAsset (nm : String) (p : Path) : FoundAsset :=
  { name := nm, ext := "png", texture_type := .Diffuse, random := false,
    path := p, action := .Pack }

/-- Scenario for C1: three kept assets A, B, C; A and B byte-identical. -/
def c1_fs : FS :=
  ⟨[(["D", "A"], .bytes [0]), (["D", "B"], .bytes [0]), (["D", "C"], .bytes [1]),
    (["D", "P"], .bytes [7])]⟩

def c1_pp : PackablePreset :=
  { name := "P", path := ["D", "P"],
    assets := [mkAsset "A" ["D", "A"], mkAsset "B" ["D", "B"], mkAsset "C" ["D", "C"]] }

def c1_out : Except PackError Unit × FS :=
  PackablePreset.pack c1_fs c1_pp ["out"] sampleEM 0

/-- Scenario for C2: "Glow.png" exists in the randomizer directory only. -/
def c2_fs : FS :=
  ⟨[(custom_asset_dir ["D"] true ++ ["Colour", "Glow.png"], .bytes [5])]⟩

/-- Scenario for C3: an archive holding one asset entry with digest [171]
(hex "ab"), logical name "Glow", recorded extension "png". -/
def c3_entry : MetaEntry :=
  { hash := [171], name := "Glow", extension := "png",
    texture_type := .Emissive, source_was_random := false }

def c3_meta : PackMetaData :=
  { name := "Pre", author := "au", description := "", packed := 0,
    preset_version := 3, target_version := 4, assets := [c3_entry] }

def c3_archive : Data :=
  .archive [(.assetsDir, .dir), (.asset [171], .bytes [9]),
            (.presetJson, .presetCopy (.bytes [7])), (.metadataJson, .metaJson c3_meta)]

def c3_fs : FS := ⟨[(["pack.kspreset"], c3_archive)]⟩

def c3_pf : PackedFile :=
  { path := ["pack.kspreset"], metadata := c3_meta, conflicts := [] }

def c3_out : Except UnpackError Unit × FS := PackedFile.unpack c3_fs ["D"] c3_pf

/-- Scenario for C4: the referenced asset exists only in the randomizer
(root (c)) directory. -/
def c4_fs : FS :=
  ⟨[(["p.kspreset"], .archive [(.metadataJson, .metaJson c3_meta)]),
    (custom_asset_dir ["D"] true ++ ["Colour", "Glow.png"], .bytes [5])]⟩

def c4_pf : PackedFile :=
  { path := ["p.kspreset"], metadata := c3_meta, conflicts := [] }

/-- Scenario for C5: the single kept asset's path does not exist, so the
archive-writing pass fails mid-way. -/
def c5_fs : FS := ⟨[(["D", "P"], .bytes [7])]⟩

def c5_pp : PackablePreset :=
  { name := "P", path := ["D", "P"], assets := [mkAsset "A" ["D", "missing"]] }

def c5_out : Except PackError Unit × FS :=
  PackablePreset.pack c5_fs c5_pp ["dest.kspreset"] sampleEM 0

def emptyMaterial : Material :=
  { diffuse := none, emissive := none, mask := none, metalness := none,
    normal := none, roughness := none, specular := none }

/-- Scenario for C9: two enabled pulses reference the same stencil name
"S"; "S.png" exists in the plain custom directory, "W" exists nowhere. -/
def c9_doc : KeysightPresetElement :=
  { effects :=
      { keypresses := { keypress_material := emptyMaterial },
        note_objects := { note_border_material := emptyMaterial,
                          note_object_material := emptyMaterial },
        particles := { particles_enabled := false, particle_v2_array := [] },
        pulses := { pulses_enabled := true,
                    pulse_array_v2 :=
                      [{ enabled := true, stencil := "S", world_stencil := "W" },
                       { enabled := true, stencil := "S", world_stencil := "W" }] } },
    scene := { backdrop_material := emptyMaterial, damper_material := emptyMaterial,
               octave_material := emptyMaterial, overlay_material := emptyMaterial,
               piano_black_key_material := emptyMaterial,
               piano_white_key_material := emptyMaterial } }

def c9_fs : FS :=
  ⟨[(custom_preset_dir ["D"] ++ ["P.json"], .presetDoc 7 c9_doc),
    (custom_asset_dir ["D"] false ++ ["Pulse stencil", "S.png"], .bytes [3])]⟩

def c9_p : Packer := { root := ["I"], preset := "P", ksv := 7 }

def c9_out : Except PackError PackablePreset := Packer.collect c9_fs ["D"] c9_p true

def c9_assetS : FoundAsset := make_found_file c9_fs ["I"] ["D"] .Stencil "S"

def c9_pp : PackablePreset :=
  { name := "P", path := custom_preset_dir ["D"] ++ ["P.json"],
    assets := [c9_assetS, c9_assetS] }

/-- A preset document with no references at all. -/
def plainDoc : KeysightPresetElement :=
  { effects :=
      { keypresses := { keypress_material := emptyMaterial },
        note_objects := { note_border_material := emptyMaterial,
                          note_object_material := emptyMaterial },
        particles := { particles_enabled := false, particle_v2_array := [] },
        pulses := { pulses_enabled := false, pulse_array_v2 := [] } },
    scene := { backdrop_material := emptyMaterial, damper_material := emptyMaterial,
               octave_material := emptyMaterial, overlay_material := emptyMaterial,
               piano_black_key_material := emptyMaterial,
               piano_white_key_material := emptyMaterial } }

/-- Scenario for C6: "Dup.png" exists both in the installation-provided
default directory and in the plain custom directory. -/
def c6_fs : FS :=
  ⟨[(root_asset_dir ["I"] ++ ["Colour", "Dup.png"], .bytes [1]),
    (custom_asset_dir ["D"] false ++ ["Colour", "Dup.png"], .bytes [2])]⟩

/-- Scenario for C7: the preset document embeds version 1600; the packer
is created for current installation version 1500. -/
def c7_fs : FS :=
  ⟨[(custom_preset_dir ["D"] ++ ["P.json"], .presetDoc 1600 plainDoc)]⟩

def c7_p : Packer := { root := ["I"], preset := "P", ksv := 1500 }

/-- Scenario for C8: two kept assets with identical bytes. -/
def c8_fs : FS :=
  ⟨[(["D", "X"], .bytes [0]), (["D", "Y"], .bytes [0]), (["D", "P"], .bytes [7])]⟩

def c8_pp : PackablePreset :=
  { name := "P", path := ["D", "P"],
    assets := [mkAsset "X" ["D", "X"], mkAsset "Y" ["D", "Y"]] }

def c8_out : Except PackError Unit × FS :=
  PackablePreset.pack c8_fs c8_pp ["o8"] sampleEM 0

def c8_meta : PackMetaData :=
  { name := "P", author := "au", description := "de", packed := 0,
    preset_version := 3, target_version := 4,
    assets := [{ hash := [0], name := "X", extension := "png",
                 texture_type := .Diffuse, source_was_random := false }] }

/-- Scenario for C10: a well-formed archive whose metadata name is
"Pre10". -/
def c10_entry : MetaEntry :=
  { hash := [2], name := "N", extension := "png", texture_type := .Mask,
    source_was_random := false }

def c10_meta : PackMetaData :=
  { name := "Pre10", author := "au", description := "", packed := 0,
    preset_version := 3, target_version := 4, assets := [c10_entry] }

def c10_fs : FS :=
  ⟨[(["b.kspreset"],
     .archive [(.assetsDir, .dir), (.asset [2], .bytes [8]),
               (.presetJson, .presetCopy (.bytes [7])),
               (.metadataJson, .metaJson c10_meta)])]⟩

def c10_pf : PackedFile :=
  { path := ["b.kspreset"], metadata := c10_meta, conflicts := [] }

def c10_out : Except UnpackError Unit × FS := PackedFile.unpack c10_fs ["D"] c10_pf

/-! Basic filesystem lemmas. -/

theorem FS.read?_write_self (fs : FS) (p : Path) (d : Data) :
    (fs.write p d).read? p = some d := by
  simp [FS.write, FS.read?, lookupPath]

theorem FS.read?_write_ne (fs : FS) (p q : Path) (d : Data) (h : q ≠ p) :
    (fs.write p d).read? q = fs.read? q := by
  simp [FS.write, FS.read?, lookupPath, Ne.symm h]

theorem lookupEntry_append_of_not_mem (l₁ l₂ : List (EntryName × Data)) (k : EntryName)
    (h : ∀ kv ∈ l₁, kv.1 ≠ k) :
    lookupEntry (l₁ ++ l₂) k = lookupEntry l₂ k := by
  induction l₁ with
  | nil => rfl
  | cons e rest ih =>
    have he : e.1 ≠ k := h e (List.mem_cons_self e rest)
    simp only [List.cons_append, lookupEntry, if_neg he]
    exact ih (fun kv hkv => h kv (List.mem_cons_of_mem e hkv))

/-! Evaluations of the code at the concrete scenarios. -/

theorem archiveEntries_write_self (fs : FS) (p : Path) (L : List (EntryName × Data)) :
    archiveEntries (fs.write p (.archive L)) p = L := by
  unfold archiveEntries
  rw [FS.read?_write_self]

/-- Claim C1 (amended): for every pack operation whose kept (Pack-resolved)
asset list is A, B, C with A and B byte-identical (bytes b1) and C
distinct (bytes b2, b1 ≠ b2), and whose preset file is readable, the
produced archive stores exactly 2 blobs (one per distinct digest), but the
metadata's assets list has exactly 2 `ContentEntry` records, not 3: the
skip taken when a digest already appears in the set of digests written for
this bundle drops the duplicate asset's `ContentEntry` together with the
blob. -/
theorem C1_dedup_drops_metadata_entry (fs : FS) (pp : PackablePreset) (dest : Path)
    (em : ExtraMeta) (now : Nat) (A B C : FoundAsset) (b1 b2 : Bytes) (d : Data)
    (hassets : pp.assets = [A, B, C])
    (hA : fs.read? A.path = some (.bytes b1))
    (hB : fs.read? B.path = some (.bytes b1))
    (hC : fs.read? C.path = some (.bytes b2))
    (hne : b1 ≠ b2)
    (hp : fs.read? pp.path = some d) :
    (PackablePreset.pack fs pp dest em now).1 = .ok () ∧
    blobCount (archiveEntries (PackablePreset.pack fs pp dest em now).2 dest) = 2 ∧
    (metaOf (archiveEntries (PackablePreset.pack fs pp dest em now).2 dest)).map
      (fun m => m.assets.length) = some 2 := by
  have hb2 : b2 ≠ b1 := fun hEq => hne hEq.symm
  have hpack : PackablePreset.pack fs pp dest em now =
      (.ok (), fs.write dest (.archive
        [(.assetsDir, .dir),
         (.asset b1, .bytes b1),
         (.asset b2, .bytes b2),
         (.presetJson, .presetCopy d),
         (.metadataJson, .metaJson
           { name := em.rename.getD pp.name, author := em.author,
             description := em.description, packed := now,
             preset_version := em.version,
             target_version := em.current_ks_version,
             assets := [{ hash := b1, name := A.name, extension := A.ext,
                          texture_type := A.texture_type,
                          source_was_random := A.random },
                        { hash := b2, name := C.name, extension := C.ext,
                          texture_type := C.texture_type,
                          source_was_random := C.random }] })])) := by
    simp [PackablePreset.pack, hassets, packLoop, hA, hB, hC, blake3_hash, hb2, hp]
  rw [hpack]
  refine ⟨rfl, ?_, ?_⟩
  · dsimp only
    rw [archiveEntries_write_self]
    rfl
  · dsimp only
    rw [archiveEntries_write_self]
    rfl

/-- Witness for C1 (amended) at the concrete A/B/C scenario (b1 = [0],
b2 = [1]). -/
theorem C1_dedup_drops_metadata_entry_witness :
    c1_pp.assets = [mkAsset "A" ["D", "A"], mkAsset "B" ["D", "B"], mkAsset "C" ["D", "C"]] ∧
    c1_fs.read? (mkAsset "A" ["D", "A"]).path = some (.bytes [0]) ∧
    c1_fs.read? (mkAsset "B" ["D", "B"]).path = some (.bytes [0]) ∧
    c1_fs.read? (mkAsset "C" ["D", "C"]).path = some (.bytes [1]) ∧
    ([0] : Bytes) ≠ [1] ∧
    c1_fs.read? c1_pp.path = some (.bytes [7]) ∧
    ((PackablePreset.pack c1_fs c1_pp ["out"] sampleEM 0).1 = .ok () ∧
     blobCount (archiveEntries (PackablePreset.pack c1_fs c1_pp ["out"] sampleEM 0).2
       ["out"]) = 2 ∧
     (metaOf (archiveEntries (PackablePreset.pack c1_fs c1_pp ["out"] sampleEM 0).2
       ["out"])).map (fun m => m.assets.length) = some 2) :=
  ⟨rfl, rfl, rfl, rfl, by decide, rfl,
   C1_dedup_drops_metadata_entry c1_fs c1_pp ["out"] sampleEM 0
     (mkAsset "A" ["D", "A"]) (mkAsset "B" ["D", "B"]) (mkAsset "C" ["D", "C"])
     [0] [1] (.bytes [7]) rfl rfl rfl rfl (by decide) rfl⟩

/-- Claim C1 counterexample: in the same scenario the metadata's assets
list does not have 3 entries (one per logical asset), contradicting the
claim that a `ContentEntry` pointing at the already-written hash is still
recorded for the duplicate. -/
theorem C1_metadata_not_three_entries :
    c1_out.1 = .ok () ∧
    ¬((metaOf (archiveEntries c1_out.2 ["out"])).map (fun m => m.assets.length) = some 3) :=
  ⟨rfl, by decide⟩

/-- Claim C2 (code_bug evaluation): when "Glow.png" exists only in the
randomizer-enabled custom directory, resolution is `Pack`, but the random
flag is `false`: the randomizer branch of `Packer::make_found_file` sets
`random: false` (the prototype resolver sets `random: true` there, and the
branch's own log message says "(random)"). -/
theorem C2_randomizer_match_random_flag_false :
    (make_found_file c2_fs ["I"] ["D"] .Emissive "Glow").action = .Pack ∧
    (make_found_file c2_fs ["I"] ["D"] .Emissive "Glow").random = false :=
  ⟨rfl, rfl⟩

/-- Claim C3 (code_bug evaluation): unpacking an entry with logical name
"Glow", recorded extension "png" and digest hex "ab" writes the blob to
"Glow.ab" in the category's custom directory, not to "Glow.png": the
source formats the hash, not the extension, into the output file name. -/
theorem C3_unpack_writes_hash_named_file :
    c3_out.1 = .ok () ∧
    c3_out.2.existsFile (custom_asset_dir ["D"] false ++ ["Colour", "Glow.ab"]) = true ∧
    c3_out.2.existsFile (custom_asset_dir ["D"] false ++ ["Colour", "Glow.png"]) = false :=
  ⟨rfl, rfl, rfl⟩

/-- Claim C4 counterexample: the entry (name "Glow", category Emissive,
extension "png") exists in the randomizer-enabled custom directory (root
(c)), yet `Unpacker::load` reports an empty conflict list: `test_file`
checks only the plain custom directory. -/
theorem C4_conflict_misses_randomizer_dir :
    c4_fs.existsFile (custom_asset_dir ["D"] true ++ ["Colour", "Glow.png"]) = true ∧
    Unpacker.load c4_fs ["D"] ["p.kspreset"] = .ok c4_pf :=
  ⟨rfl, rfl⟩

/-- Claim C5 counterexample: with the single kept asset's source path
missing, `PackablePreset::pack` aborts with an error, but a (partial)
archive file is present at the destination path afterwards: the output
file is created at the destination up front and is not removed or renamed
on failure. -/
theorem C5_failed_pack_leaves_destination_file :
    c5_out.1 = .error .PackIoError ∧
    c5_out.2.existsFile ["dest.kspreset"] = true :=
  ⟨rfl, rfl⟩

/-- Claim C9 counterexample: a preset whose two enabled pulses both
reference stencil "S" (resolved `Pack`) makes `Packer::collect` produce an
asset list containing the pair (name "S", category Stencil) twice: no
de-duplication by (name, category) is performed. -/
theorem C9_collect_duplicate_refs :
    (c9_out.map (fun pp => pp.assets.map (fun a => (a.name, a.texture_type)))) =
      .ok [("S", .Stencil), ("S", .Stencil)] :=
  rfl

/-! Structure of `make_found_file` and `collect`. -/

theorem make_found_file_fields (fs : FS) (install dl : Path) (typ : TextureType)
    (file : String) :
    (make_found_file fs install dl typ file).name = file ∧
    (make_found_file fs install dl typ file).texture_type = typ := by
  unfold make_found_file
  split
  · exact ⟨rfl, rfl⟩
  · split
    · exact ⟨rfl, rfl⟩
    · split
      · exact ⟨rfl, rfl⟩
      · exact ⟨rfl, rfl⟩

theorem make_found_file_ignore (fs : FS) (install dl : Path) (typ : TextureType)
    (file : String)
    (h : (test_exts fs (root_asset_dir install ++ [typ.path_name]) file).isSome = true) :
    (make_found_file fs install dl typ file).action = .Ignore := by
  unfold make_found_file
  rcases hx : test_exts fs (root_asset_dir install ++ [typ.path_name]) file with _ | pe
  · rw [hx] at h
    simp at h
  · rcases pe with ⟨p1, e1⟩
    simp only [hx]

theorem opt_texture_eq (fs : FS) (install dl : Path) (typ : TextureType)
    (o : Option String) :
    opt_texture fs install dl typ o =
      (opt_ref typ o).map (fun r => make_found_file fs install dl r.1 r.2) := by
  cases o <;> rfl

theorem get_textures_eq (fs : FS) (install dl : Path) (t : Material) :
    get_textures fs install dl t =
      (material_refs t).map (fun r => make_found_file fs install dl r.1 r.2) := by
  unfold get_textures material_refs
  simp only [List.map_append, opt_texture_eq]

theorem collect_files_eq_map (fs : FS) (install dl : Path) (doc : KeysightPresetElement) :
    collect_files fs install dl doc =
      (extract_refs doc).map (fun r => make_found_file fs install dl r.1 r.2) := by
  unfold collect_files extract_refs
  cases hpe : doc.effects.particles.particles_enabled <;>
    cases hpu : doc.effects.pulses.pulses_enabled <;>
      simp [List.map_append, get_textures_eq, List.map_map, List.map_flatMap,
        Function.comp]

theorem collect_ok_assets (fs : FS) (dl : Path) (p : Packer) (ab : Bool)
    (pp : PackablePreset) (h : Packer.collect fs dl p ab = .ok pp) :
    ∃ v doc,
      fs.read? (custom_preset_dir dl ++ [p.preset ++ ".json"]) = some (.presetDoc v doc) ∧
      pp.assets = (collect_files fs p.root dl doc).filter (fun a => a.action.isPack) := by
  simp only [Packer.collect] at h
  split at h
  · exact absurd h (by simp)
  · split at h
    · exact absurd h (by simp)
    · next v doc heq =>
      split at h
      · exact absurd h (by simp)
      · refine ⟨v, doc, heq, ?_⟩
        cases h
        rfl
    · exact absurd h (by simp)

/-- Claim C6: when a referenced asset matches a file (under the fixed
extension order png, jpg, jpeg) in the installation-provided default
directory for its category, resolution is `Ignore` regardless of the user
directories, and no asset with that (name, category) survives into the
kept asset list that feeds the archive. -/
theorem C6_builtin_match_ignored_never_packed (fs : FS) (install dl : Path)
    (typ : TextureType) (file : String)
    (h : (test_exts fs (root_asset_dir install ++ [typ.path_name]) file).isSome = true) :
    (make_found_file fs install dl typ file).action = .Ignore ∧
    ∀ (p : Packer) (ab : Bool) (pp : PackablePreset), p.root = install →
      Packer.collect fs dl p ab = .ok pp →
      ∀ a ∈ pp.assets, ¬(a.name = file ∧ a.texture_type = typ) := by
  refine ⟨make_found_file_ignore fs install dl typ file h, ?_⟩
  rintro p ab pp hroot hok a ha ⟨hn, ht⟩
  obtain ⟨v, doc, hrd, hassets⟩ := collect_ok_assets fs dl p ab pp hok
  rw [hassets] at ha
  obtain ⟨hmem, hpack⟩ := List.mem_filter.mp ha
  rw [collect_files_eq_map] at hmem
  obtain ⟨r, hr, hra⟩ := List.mem_map.mp hmem
  obtain ⟨hfn, hft⟩ := make_found_file_fields fs p.root dl r.1 r.2
  subst hra
  rw [hfn] at hn
  rw [hft] at ht
  subst hn
  subst ht
  subst hroot
  rw [make_found_file_ignore fs p.root dl r.1 r.2 h] at hpack
  simp [AssetAction.isPack] at hpack

/-- Claim C7: when the preset exists and parses, the builtin guard does
not fire, and the document's embedded version differs from the
caller-supplied current installation version, `collect` fails with
`WrongVersion` carrying both versions, and the export pipeline leaves the
filesystem unchanged: no archive file is produced. -/
theorem C7_version_mismatch_fails_without_archive (fs : FS) (dl : Path) (p : Packer)
    (ab : Bool) (v : Version) (doc : KeysightPresetElement) (dest : Path)
    (em : ExtraMeta) (now : Nat)
    (hb : (!ab && Packer.check_builtin_preset fs p) = false)
    (hr : fs.read? (custom_preset_dir dl ++ [p.preset ++ ".json"]) =
      some (.presetDoc v doc))
    (hv : v ≠ p.ksv) :
    Packer.collect fs dl p ab = .error (.WrongVersion p.ksv v) ∧
    collect_and_pack fs dl p ab dest em now = (.error (.WrongVersion p.ksv v), fs) := by
  have hc : Packer.collect fs dl p ab = .error (.WrongVersion p.ksv v) := by
    unfold Packer.collect
    rw [hb]
    simp only [Bool.false_eq_true, if_false, hr]
    rw [if_pos hv]
  refine ⟨hc, ?_⟩
  unfold collect_and_pack
  rw [hc]

/-- Witness for C6: "Dup.png" present in both the installation default
directory and the plain custom directory for category Diffuse. -/
theorem C6_builtin_match_ignored_never_packed_witness :
    (test_exts c6_fs (root_asset_dir ["I"] ++ [TextureType.Diffuse.path_name]) "Dup").isSome
        = true ∧
    ((make_found_file c6_fs ["I"] ["D"] .Diffuse "Dup").action = .Ignore ∧
     ∀ (p : Packer) (ab : Bool) (pp : PackablePreset), p.root = ["I"] →
       Packer.collect c6_fs ["D"] p ab = .ok pp →
       ∀ a ∈ pp.assets, ¬(a.name = "Dup" ∧ a.texture_type = .Diffuse)) :=
  ⟨rfl, C6_builtin_match_ignored_never_packed c6_fs ["I"] ["D"] .Diffuse "Dup" rfl⟩

/-- Witness for C7: packing with current version 1500 against a preset
document embedding version 1600. -/
theorem C7_version_mismatch_fails_without_archive_witness :
    ((!true && Packer.check_builtin_preset c7_fs c7_p) = false) ∧
    (c7_fs.read? (custom_preset_dir ["D"] ++ [c7_p.preset ++ ".json"]) =
      some (.presetDoc 1600 plainDoc)) ∧
    ((1600 : Version) ≠ c7_p.ksv) ∧
    (Packer.collect c7_fs ["D"] c7_p true = .error (.WrongVersion c7_p.ksv 1600) ∧
     collect_and_pack c7_fs ["D"] c7_p true ["d7"] sampleEM 0 =
       (.error (.WrongVersion c7_p.ksv 1600), c7_fs)) :=
  ⟨rfl, rfl, by decide,
    C7_version_mismatch_fails_without_archive c7_fs ["D"] c7_p true 1600 plainDoc
      ["d7"] sampleEM 0 rfl rfl (by decide)⟩

/-- Claim C4 (amended): the conflict list of a loaded archive is exactly
the metadata entries whose "{name}.{extension}" exists in the plain
(non-randomizer) custom asset directory under the category stem; the test
consults neither the installation-provided directory nor the
randomizer-enabled directory, and uses the entry's recorded extension
rather than the resolution extension search. -/
theorem C4_conflicts_exactly_plain_custom_matches (fs : FS) (dl src : Path)
    (pf : PackedFile) (h : Unpacker.load fs dl src = .ok pf) :
    pf.conflicts = pf.metadata.assets.filter (fun e =>
      fs.existsFile (custom_asset_dir dl false ++
        [e.texture_type.path_name, e.name ++ "." ++ e.extension])) := by
  simp only [Unpacker.load] at h
  split at h
  · exact absurd h (by simp)
  · split at h
    · cases h
      rfl
    · exact absurd h (by simp)
    · exact absurd h (by simp)
  · exact absurd h (by simp)

/-- Witness for C4 (amended) at the concrete randomizer-only scenario. -/
theorem C4_conflicts_exactly_plain_custom_matches_witness :
    Unpacker.load c4_fs ["D"] ["p.kspreset"] = .ok c4_pf ∧
    c4_pf.conflicts = c4_pf.metadata.assets.filter (fun e =>
      c4_fs.existsFile (custom_asset_dir ["D"] false ++
        [e.texture_type.path_name, e.name ++ "." ++ e.extension])) :=
  ⟨rfl, C4_conflicts_exactly_plain_custom_matches c4_fs ["D"] ["p.kspreset"] c4_pf rfl⟩

/-- Claim C5 (amended): any error during the archive-writing pass aborts
the whole pack with that error, but the output is written directly at the
destination path (no temporary location and rename): after a failed pack a
partially written archive file is present at the destination. -/
theorem C5_pack_error_leaves_truncated_archive (fs : FS) (pp : PackablePreset)
    (dest : Path) (em : ExtraMeta) (now : Nat) (e : PackError) (fs' : FS)
    (h : PackablePreset.pack fs pp dest em now = (.error e, fs')) :
    ∃ es, fs'.read? dest = some (.truncatedArchive es) := by
  simp only [PackablePreset.pack] at h
  split at h
  · rw [Prod.mk.injEq] at h
    obtain ⟨he, hfs⟩ := h
    subst hfs
    exact ⟨_, FS.read?_write_self fs dest _⟩
  · split at h
    · rw [Prod.mk.injEq] at h
      obtain ⟨he, hfs⟩ := h
      subst hfs
      exact ⟨_, FS.read?_write_self fs dest _⟩
    · rw [Prod.mk.injEq] at h
      obtain ⟨he, hfs⟩ := h
      exact absurd he (by simp)

/-- Witness for C5 (amended) at the concrete missing-asset scenario. -/
theorem C5_pack_error_leaves_truncated_archive_witness :
    PackablePreset.pack c5_fs c5_pp ["dest.kspreset"] sampleEM 0 =
      (.error .PackIoError, c5_out.2) ∧
    ∃ es, c5_out.2.read? ["dest.kspreset"] = some (.truncatedArchive es) :=
  ⟨rfl, C5_pack_error_leaves_truncated_archive c5_fs c5_pp ["dest.kspreset"] sampleEM 0
    .PackIoError c5_out.2 rfl⟩

/-! Invariants of the archive-writing loop. -/

theorem packLoop_entry_keys (fs : FS) :
    ∀ (assets : List FoundAsset) (hashes : List Bytes)
      (entries : List (EntryName × Data)) (metas : List MetaEntry),
      (∀ kv ∈ entries, kv.1 = .assetsDir ∨ ∃ h, kv.1 = EntryName.asset h) →
      ∀ kv ∈ (packLoop fs assets hashes entries metas).2.1,
        kv.1 = .assetsDir ∨ ∃ h, kv.1 = EntryName.asset h := by
  intro assets
  induction assets with
  | nil =>
    intro hashes entries metas hinv kv hkv
    exact hinv kv hkv
  | cons a rest ih =>
    intro hashes entries metas hinv kv hkv
    simp only [packLoop] at hkv
    split at hkv
    · split at hkv
      · exact ih hashes entries metas hinv kv hkv
      · refine ih _ _ _ ?_ kv hkv
        intro kv' hkv'
        rcases List.mem_append.mp hkv' with h1 | h2
        · exact hinv kv' h1
        · rw [List.mem_singleton] at h2
          subst h2
          exact Or.inr ⟨_, rfl⟩
    · exact hinv kv hkv

theorem packLoop_balance (fs : FS) :
    ∀ (assets : List FoundAsset) (hashes : List Bytes)
      (entries : List (EntryName × Data)) (metas : List MetaEntry),
      (∀ h, (∃ d, (EntryName.asset h, d) ∈ entries) ↔ ∃ e ∈ metas, e.hash = h) →
      ∀ h, (∃ d, (EntryName.asset h, d) ∈ (packLoop fs assets hashes entries metas).2.1) ↔
        ∃ e ∈ (packLoop fs assets hashes entries metas).2.2, e.hash = h := by
  intro assets
  induction assets with
  | nil =>
    intro hashes entries metas hinv h
    exact hinv h
  | cons a rest ih =>
    intro hashes entries metas hinv h
    simp only [packLoop]
    split
    · next b hread =>
      split
      · exact ih hashes entries metas hinv h
      · refine ih _ _ _ ?_ h
        intro h'
        have hold := hinv h'
        constructor
        · rintro ⟨d, hd⟩
          rcases List.mem_append.mp hd with h1 | h2
          · obtain ⟨e, he, hh⟩ := hold.mp ⟨d, h1⟩
            exact ⟨e, List.mem_append_left _ he, hh⟩
          · rw [List.mem_singleton, Prod.mk.injEq] at h2
            obtain ⟨h2a, h2b⟩ := h2
            rw [EntryName.asset.injEq] at h2a
            refine ⟨_, List.mem_append_right _ (List.mem_singleton_self _), ?_⟩
            exact h2a.symm
        · rintro ⟨e, he, hh⟩
          rcases List.mem_append.mp he with h1 | h2
          · obtain ⟨d, hd⟩ := hold.mpr ⟨e, h1, hh⟩
            exact ⟨d, List.mem_append_left _ hd⟩
          · rw [List.mem_singleton] at h2
            subst h2
            refine ⟨.bytes b, List.mem_append_right _ ?_⟩
            rw [← hh]
            exact List.mem_singleton_self _
    · exact hinv h

/-- Claim C8: for every successfully produced archive, a digest appears as
a stored blob name under assets/ iff some `ContentEntry` of the metadata
references it: no `ContentEntry` without a stored blob, and no stored blob
without at least one referencing `ContentEntry`. -/
theorem C8_entry_hashes_iff_stored_blobs (fs : FS) (pp : PackablePreset) (dest : Path)
    (em : ExtraMeta) (now : Nat) (fs' : FS) (entries : List (EntryName × Data))
    (meta : PackMetaData)
    (hp : PackablePreset.pack fs pp dest em now = (.ok (), fs'))
    (hr : fs'.read? dest = some (.archive entries))
    (hm : metaOf entries = some meta) :
    ∀ h, (∃ d, (EntryName.asset h, d) ∈ entries) ↔ ∃ e ∈ meta.assets, e.hash = h := by
  have hinit_keys : ∀ kv ∈ ([(EntryName.assetsDir, Data.dir)] : List (EntryName × Data)),
      kv.1 = .assetsDir ∨ ∃ h, kv.1 = EntryName.asset h := by
    intro kv hkv
    rw [List.mem_singleton] at hkv
    subst hkv
    exact Or.inl rfl
  have hinit_bal : ∀ h, (∃ d, (EntryName.asset h, d) ∈
      ([(EntryName.assetsDir, Data.dir)] : List (EntryName × Data))) ↔
      ∃ e ∈ ([] : List MetaEntry), e.hash = h := by
    intro h
    simp
  simp only [PackablePreset.pack] at hp
  split at hp
  · rw [Prod.mk.injEq] at hp
    exact absurd hp.1 (by simp)
  · next es ms heq =>
    split at hp
    · rw [Prod.mk.injEq] at hp
      exact absurd hp.1 (by simp)
    · next d hread =>
      rw [Prod.mk.injEq] at hp
      obtain ⟨-, hfs⟩ := hp
      subst hfs
      rw [FS.read?_write_self] at hr
      rw [Option.some.injEq, Data.archive.injEq] at hr
      subst hr
      have hkeys := packLoop_entry_keys fs pp.assets [] [(.assetsDir, .dir)] [] hinit_keys
      rw [heq] at hkeys
      have hbal := packLoop_balance fs pp.assets [] [(.assetsDir, .dir)] [] hinit_bal
      rw [heq] at hbal
      have hlk : lookupEntry (es ++
          [(EntryName.presetJson, Data.presetCopy d),
           (EntryName.metadataJson, Data.metaJson
             { name := em.rename.getD pp.name, author := em.author,
               description := em.description, packed := now,
               preset_version := em.version,
               target_version := em.current_ks_version, assets := ms })])
          .metadataJson = some (Data.metaJson
             { name := em.rename.getD pp.name, author := em.author,
               description := em.description, packed := now,
               preset_version := em.version,
               target_version := em.current_ks_version, assets := ms }) := by
        rw [lookupEntry_append_of_not_mem]
        · rfl
        · intro kv hkv
          rcases hkeys kv hkv with h1 | ⟨hh, h2⟩
          · simp [h1]
          · simp [h2]
      rw [metaOf, hlk] at hm
      rw [Option.some.injEq] at hm
      subst hm
      intro h
      have hb := hbal h
      constructor
      · rintro ⟨d', hd⟩
        rcases List.mem_append.mp hd with h1 | h2
        · exact hb.mp ⟨d', h1⟩
        · simp at h2
      · intro hex
        obtain ⟨d', hd⟩ := hb.mpr hex
        exact ⟨d', List.mem_append_left _ hd⟩

/-- Witness for C8: packing two byte-identical kept assets produces an
archive whose single stored blob digest is exactly the digest referenced
by the metadata entries. -/
theorem C8_entry_hashes_iff_stored_blobs_witness :
    PackablePreset.pack c8_fs c8_pp ["o8"] sampleEM 0 = (.ok (), c8_out.2) ∧
    c8_out.2.read? ["o8"] = some (.archive (archiveEntries c8_out.2 ["o8"])) ∧
    metaOf (archiveEntries c8_out.2 ["o8"]) = some c8_meta ∧
    ∀ h, (∃ d, (EntryName.asset h, d) ∈ archiveEntries c8_out.2 ["o8"]) ↔
      ∃ e ∈ c8_meta.assets, e.hash = h :=
  ⟨rfl, rfl, rfl,
    C8_entry_hashes_iff_stored_blobs c8_fs c8_pp ["o8"] sampleEM 0 c8_out.2
      (archiveEntries c8_out.2 ["o8"]) c8_meta rfl rfl rfl⟩

/-- Claim C9 (amended): the asset list `Packer::collect` produces is
exactly the document's reference sequence (in document walking order,
duplicates included) resolved through `make_found_file` and filtered to
the `Pack`-resolved ones; no de-duplication by (name, category) is
performed, so the list may contain two elements with the same logical name
and category. -/
theorem C9_collect_is_resolved_refs_no_dedup (fs : FS) (dl : Path) (p : Packer)
    (ab : Bool) (v : Version) (doc : KeysightPresetElement) (pp : PackablePreset)
    (hr : fs.read? (custom_preset_dir dl ++ [p.preset ++ ".json"]) =
      some (.presetDoc v doc))
    (hok : Packer.collect fs dl p ab = .ok pp) :
    pp.assets = ((extract_refs doc).map
      (fun r => make_found_file fs p.root dl r.1 r.2)).filter
      (fun a => a.action.isPack) := by
  obtain ⟨v', doc', hr', hassets⟩ := collect_ok_assets fs dl p ab pp hok
  rw [hr] at hr'
  rw [Option.some.injEq, Data.presetDoc.injEq] at hr'
  obtain ⟨hv, hdoc⟩ := hr'
  subst hdoc
  rw [hassets, collect_files_eq_map]

/-- Witness for C9 (amended) at the duplicate-pulse scenario. -/
theorem C9_collect_is_resolved_refs_no_dedup_witness :
    (c9_fs.read? (custom_preset_dir ["D"] ++ [c9_p.preset ++ ".json"]) =
      some (.presetDoc 7 c9_doc)) ∧
    Packer.collect c9_fs ["D"] c9_p true = .ok c9_pp ∧
    c9_pp.assets = ((extract_refs c9_doc).map
      (fun r => make_found_file c9_fs c9_p.root ["D"] r.1 r.2)).filter
      (fun a => a.action.isPack) :=
  ⟨rfl, rfl,
    C9_collect_is_resolved_refs_no_dedup c9_fs ["D"] c9_p true 7 c9_doc c9_pp rfl rfl⟩

/-! Path disjointness facts used for the unpacker. -/

theorem name_json_ne (n : String) : n ++ ".json" ≠ n := by
  intro hEq
  have h3 := congrArg String.length hEq
  rw [String.length_append] at h3
  have h4 : (".json" : String).length = 5 := rfl
  rw [h4] at h3
  omega

theorem preset_dir_ne_asset_dir (dl : Path) (x pn fn : String) :
    custom_preset_dir dl ++ [x] ≠ custom_asset_dir dl false ++ [pn, fn] := by
  intro hEq
  simp only [custom_preset_dir, custom_asset_dir, Bool.false_eq_true, if_false] at hEq
  rw [List.append_assoc, List.append_assoc] at hEq
  have h1 := List.append_cancel_left hEq
  simp only [List.cons_append, List.nil_append, List.cons.injEq] at h1
  obtain ⟨-, -, h3, -⟩ := h1
  have h2 : ("Presets" : String) ≠ "Textures" := by decide
  exact h2 h3

theorem preset_path_ne (dl : Path) (n : String) :
    custom_preset_dir dl ++ [n ++ ".json"] ≠ custom_preset_dir dl ++ [n] := by
  intro hEq
  have h1 := List.append_cancel_left hEq
  rw [List.cons.injEq] at h1
  exact name_json_ne n h1.1

theorem unpackAssets_read?_preserved (dl : Path) (entries : List (EntryName × Data))
    (q : Path) (hq : ∀ pn fn, q ≠ custom_asset_dir dl false ++ [pn, fn]) :
    ∀ (fs : FS) (l : List MetaEntry) (r : Except UnpackError Unit) (fs' : FS),
      unpackAssets dl entries fs l = (r, fs') → fs'.read? q = fs.read? q := by
  intro fs l
  induction l generalizing fs with
  | nil =>
    intro r fs' h
    simp only [unpackAssets] at h
    rw [Prod.mk.injEq] at h
    rw [← h.2]
  | cons a rest ih =>
    intro r fs' h
    simp only [unpackAssets] at h
    split at h
    · rw [Prod.mk.injEq] at h
      rw [← h.2]
    · next d hlk =>
      have hrec := ih _ _ _ h
      rw [hrec, FS.read?_write_ne]
      exact hq _ _

/-- Claim C10: the preset-name conflict test and the preset write of
`unpack` disagree on the file name.  `exists` checks
"{metadata.name}.json" in the local preset directory; `unpack` writes the
verbatim preset document to a file named exactly `metadata.name`; those
are different paths, so running `unpack` never changes the outcome of the
preset-name conflict test for the same bundle. -/
theorem C10_preset_conflict_checks_different_file (fs : FS) (dl : Path)
    (pf : PackedFile) (r : Except UnpackError Unit) (fs' : FS)
    (hu : PackedFile.unpack fs dl pf = (r, fs')) :
    PackedFile.presetExists fs dl pf =
      fs.existsFile (custom_preset_dir dl ++ [pf.metadata.name ++ ".json"]) ∧
    custom_preset_dir dl ++ [pf.metadata.name] ≠
      custom_preset_dir dl ++ [pf.metadata.name ++ ".json"] ∧
    (∀ entries d, fs.read? pf.path = some (.archive entries) →
      lookupEntry entries .presetJson = some d →
      fs'.read? (custom_preset_dir dl ++ [pf.metadata.name]) = some d) ∧
    PackedFile.presetExists fs' dl pf = PackedFile.presetExists fs dl pf := by
  refine ⟨rfl, ?_, ?_, ?_⟩
  · intro hEq
    have h1 := List.append_cancel_left hEq
    rw [List.cons.injEq] at h1
    exact name_json_ne pf.metadata.name h1.1.symm
  · intro entries d hread hlkp
    simp only [PackedFile.unpack] at hu
    split at hu
    · next hnone =>
      rw [hnone] at hread
      exact absurd hread (by simp)
    · next es hes =>
      rw [hes] at hread
      rw [Option.some.injEq, Data.archive.injEq] at hread
      subst hread
      split at hu
      · next hlk2 =>
        rw [hlk2] at hlkp
        exact absurd hlkp (by simp)
      · next d' hlk2 =>
        rw [hlk2] at hlkp
        rw [Option.some.injEq] at hlkp
        subst hlkp
        have hpres := unpackAssets_read?_preserved dl es
          (custom_preset_dir dl ++ [pf.metadata.name])
          (fun pn fn => preset_dir_ne_asset_dir dl _ pn fn) _ _ _ _ hu
        rw [hpres, FS.read?_write_self]
    · next oval val hno hother =>
      rw [hother] at hread
      rw [Option.some.injEq] at hread
      exact absurd hread (hno entries)
  · simp only [PackedFile.unpack] at hu
    split at hu
    · rw [Prod.mk.injEq] at hu
      rw [← hu.2]
    · split at hu
      · rw [Prod.mk.injEq] at hu
        rw [← hu.2]
      · next d hlk =>
        have hpres := unpackAssets_read?_preserved dl _
          (custom_preset_dir dl ++ [pf.metadata.name ++ ".json"])
          (fun pn fn => preset_dir_ne_asset_dir dl _ pn fn) _ _ _ _ hu
        unfold PackedFile.presetExists FS.existsFile
        rw [hpres, FS.read?_write_ne]
        exact preset_path_ne dl pf.metadata.name
    · rw [Prod.mk.injEq] at hu
      rw [← hu.2]

/-- Witness for C10 at the concrete archive scenario (metadata name
"Pre10"). -/
theorem C10_preset_conflict_checks_different_file_witness :
    PackedFile.unpack c10_fs ["D"] c10_pf = (c10_out.1, c10_out.2) ∧
    (PackedFile.presetExists c10_fs ["D"] c10_pf =
      c10_fs.existsFile (custom_preset_dir ["D"] ++ [c10_pf.metadata.name ++ ".json"]) ∧
    custom_preset_dir ["D"] ++ [c10_pf.metadata.name] ≠
      custom_preset_dir ["D"] ++ [c10_pf.metadata.name ++ ".json"] ∧
    (∀ entries d, c10_fs.read? c10_pf.path = some (.archive entries) →
      lookupEntry entries .presetJson = some d →
      c10_out.2.read? (custom_preset_dir ["D"] ++ [c10_pf.metadata.name]) = some d) ∧
    PackedFile.presetExists c10_out.2 ["D"] c10_pf =
      PackedFile.presetExists c10_fs ["D"] c10_pf) :=
  ⟨rfl,
   C10_preset_conflict_checks_different_file c10_fs ["D"] c10_pf c10_out.1 c10_out.2 rfl⟩

end Kspacker
